import Mathlib

/-!
Verification of the market-pulse ingestion pipeline
(`mysite/ingestion/ingestions.py`, `mysite/ingestion/sentiments.py`,
`mysite/core/models.py`) against its specification.

The Python code is shallowly embedded: Python strings become `String` /
`List Char`, JSON scalar values become `PyVal`, `dict.get` results become
`Option`, raising code returns `Except`, and the relational store becomes an
explicit list of rows threaded through the pipeline.  Python truthiness,
`str.split()`, `str.strip(chars)`, `str.title()` and `int(str)` are modelled
by executable functions below.
-/

deriving instance DecidableEq for Except

namespace MarketPulse

/-- Scalar value as found in a JSON / provider payload: an integer or a
string.  (`None` is modelled by wrapping in `Option`.) -/
inductive PyVal where
  | int (n : Int)
  | str (s : String)
deriving DecidableEq

/-- Python truthiness of a scalar: `0` and `""` are falsy. -/
def PyVal.truthy : PyVal → Bool
  | .int n => n != 0
  | .str s => s != ""

/-- Python truthiness of an optional scalar: `None` is falsy. -/
def pyTruthy : Option PyVal → Bool
  | none => false
  | some v => v.truthy

/-- Python truthiness of an optional string (`None` and `""` are falsy). -/
def pyTruthyStr : Option String → Bool
  | none => false
  | some s => s != ""

/-- Model of `int(s)` on a string: strip surrounding whitespace, accept an
optional sign followed by one or more digits; anything else raises
(`none`). -/
def pyIntOfString (s : String) : Option Int :=
  let l := ((s.toList.dropWhile Char.isWhitespace).reverse.dropWhile
      Char.isWhitespace).reverse
  let core : List Char → Option Int := fun ds =>
    if ds ≠ [] ∧ ds.all Char.isDigit then
      some (ds.foldl (fun a c => a * 10 + ((c.toNat : Int) - 48)) 0)
    else none
  match l with
  | '+' :: ds => core ds
  | '-' :: ds => (core ds).map (- ·)
  | ds => core ds

/-- Model of `str.split()` with no separator (used via `pyTokens`):
accumulates the current token (reversed) while scanning. -/
def pyTokensAux (cur : List Char) : List Char → List (List Char)
  | [] => if cur.isEmpty then [] else [cur.reverse]
  | c :: cs =>
    if c.isWhitespace then
      if cur.isEmpty then pyTokensAux [] cs else cur.reverse :: pyTokensAux [] cs
    else pyTokensAux (c :: cur) cs

/-- Model of Python `str.split()`: whitespace-separated tokens, no empties. -/
def pyTokens (l : List Char) : List (List Char) :=
  pyTokensAux [] l

/-- Model of Python `str.strip()` (no argument): drop whitespace from both
ends. -/
def pyStripWs (l : List Char) : List Char :=
  ((l.dropWhile Char.isWhitespace).reverse.dropWhile Char.isWhitespace).reverse

/-- Model of Python `str.strip(chars)`: drop characters of `set` from both
ends. -/
def pyStripChars (set : List Char) (l : List Char) : List Char :=
  ((l.dropWhile set.contains).reverse.dropWhile set.contains).reverse

/-- Model of Python `str.strip()` on a `String`. -/
def pyStrip (s : String) : String :=
  String.mk (pyStripWs s.toList)

/-- ASCII lower-casing of one character (ticker symbols are ASCII). -/
def charLower (c : Char) : Char :=
  if 'A' ≤ c ∧ c ≤ 'Z' then Char.ofNat (c.toNat + 32) else c

/-- Model of Python `str.lower()`. -/
def pyLower (s : String) : String :=
  String.mk (s.toList.map charLower)

/-- Model of Python slicing `s[:n]`. -/
def pyTake (n : Nat) (s : String) : String :=
  String.mk (s.toList.take n)

/-- Helper for the model of Python `str.title()`: `prev` records whether the
previous character was alphabetic. -/
def pyTitleAux (prev : Bool) : List Char → List Char
  | [] => []
  | c :: cs =>
    if c.isAlpha then
      (if prev then c.toLower else c.toUpper) :: pyTitleAux true cs
    else c :: pyTitleAux false cs

/-- Model of Python `str.title()`: the first letter of each alphabetic run is
upper-cased, the rest lower-cased. -/
def pyTitle (l : List Char) : List Char :=
  pyTitleAux false l

/-! ## Sentiment Classifier (`sentiments.py`) -/

/-- Message part of a provider chat response (`resp.choices[0].message`). -/
structure SentMessage where
  content : Option String
  reasoning : Option String
deriving DecidableEq

/-- One choice of a provider chat response. -/
structure SentChoice where
  message : SentMessage
  text : Option String
deriving DecidableEq

/-- Provider chat response shape relevant to `news_analysis`.  `dumpFails`
models `resp.model_dump()` itself raising. -/
structure SentResp where
  choices : List SentChoice
  output_text : Option String
  dumpFails : Bool
deriving DecidableEq

/-- Python `x or y` on two optional strings: first operand if truthy, else
the second operand as-is. -/
def pyOrStr (a b : Option String) : Option String :=
  if pyTruthyStr a then a else b

/-- Python `str(x)` on an optional string: `None` prints as `"None"`. -/
def pyStrOfOpt : Option String → String
  | none => "None"
  | some s => s

/-- Embedding of `sentiments.py` lines 50-53: reduce the extracted text to
its first whitespace token, strip `",. "`, title-case, map `"Good"` to
`"Positive"`, collapse anything non-canonical to `"Neutral"`.  Indexing
`[0]` into the token list of a whitespace-only text raises `IndexError`
(`Except.error`). -/
def labelOfText (text : String) : Except Unit String :=
  match pyTokens (pyStripWs text.toList) with
  | [] => .error ()
  | tok :: _ =>
    let label := String.mk (pyTitle (pyStripChars [',', '.', ' '] tok))
    let label := if label = "Good" then "Positive" else label
    .ok (if label = "Positive" ∨ label = "Neutral" ∨ label = "Negative"
         then label else "Neutral")

/-- Embedding of the response-text extraction and labelling of
`news_analysis` (lines 32-53), given a provider response. -/
def analyzeResp (r : SentResp) : Except Unit String :=
  let t1 : Option String :=
    match r.choices.head? with
    | none => none
    | some ch =>
      match ch.message.content with
      | some c => some c
      | none => ch.message.reasoning
  if pyTruthyStr t1 then labelOfText (t1.getD "")
  else
    match r.choices.head? with
    | none => .error ()
    | some ch =>
      let t2 := pyOrStr ch.text r.output_text
      if pyTruthyStr t2 then labelOfText (t2.getD "")
      else if r.dumpFails then .ok "Neutral"
      else
        let t3 := pyOrStr ch.message.content
          (pyOrStr ch.message.reasoning ch.text)
        labelOfText (pyStrOfOpt t3)

/-- Embedding of `news_analysis`: empty / whitespace-only headlines return
`"Neutral"` before the provider client is even built; otherwise the provider
call is issued (its raising propagates) and the response analysed.  The
second component counts external calls made. -/
def news_analysis (resp : Except Unit SentResp) (headline : String) :
    Except Unit String × Nat :=
  if headline = "" ∨ pyStrip headline = "" then (.ok "Neutral", 0)
  else
    match resp with
    | .error e => (.error e, 1)
    | .ok r => (analyzeResp r, 1)

/-! ## Data model (`core/models.py`) -/

/-- Company row: id, ticker, active flag (name omitted; importers never read
it). -/
structure Company where
  id : Nat
  ticker : String
  is_active : Bool
deriving DecidableEq

/-- Datetime value as produced by `datetime.fromisoformat`: the naive
date-time text plus an optional UTC offset in minutes (`none` = naive /
no `tzinfo`). -/
structure PyDatetime where
  naive : List Char
  tz : Option Int
deriving DecidableEq

/-- MarketCandle as constructed in memory (`models.py` 37-57):
`(companyId, ts)` is unique.  The price and volume fields are
`Option`-valued because the in-memory Django object accepts `None` (the
importer fills them from `it.get(...)`); the schema columns themselves are
NOT NULL, which the store boundary (`candleInsert`) enforces — an
incomplete object is never stored. -/
structure MarketCandle where
  companyId : Nat
  ts : PyDatetime
  openP : Option Int
  high : Option Int
  low : Option Int
  close : Option Int
  volume : Option Int
deriving DecidableEq

/-- Does the candle satisfy the NOT NULL price/volume columns of
`models.py` 41-45? -/
def candleComplete (c : MarketCandle) : Bool :=
  c.openP.isSome && c.high.isSome && c.low.isSome && c.close.isSome
    && c.volume.isSome

/-- Article row (`models.py` 16-35); `url` is unique. -/
structure Article where
  companyId : Nat
  title : String
  url : String
  source : String
  published : Option Int
  sentiment_label : String
deriving DecidableEq

/-- Case-insensitive ticker match (`ticker__iexact`). -/
def tickerIexact (c : Company) (sym : String) : Bool :=
  pyLower c.ticker == pyLower sym

/-- Model of `Company.objects.get(ticker__iexact=sym)`: raises unless
exactly one company matches. -/
def companyGet (companies : List Company) (sym : String) : Except Unit Nat :=
  match companies.filter (tickerIexact · sym) with
  | [c] => .ok c.id
  | _ => .error ()

/-- Model of `Company.objects.filter(ticker__iexact=symbol).first()`. -/
def companyFirst (companies : List Company) (sym : String) : Option Company :=
  (companies.filter (tickerIexact · sym)).head?

/-! ## Candle Importer (`run_candles_from_json_pipeline`) -/

/-- One record of a candle JSON file.  `time` is the raw string of the
`"time"` field (`none` when the key is absent); price fields are carried
through untouched. -/
structure CandleRecord where
  time : Option String := none
  openP : Option Int := none
  high : Option Int := none
  low : Option Int := none
  close : Option Int := none
  volume : Option Int := none
deriving DecidableEq

/-- Does the record carry all five price/volume fields, so that the
constructed candle satisfies the NOT NULL columns of `models.py` 41-45? -/
def recordComplete (r : CandleRecord) : Bool :=
  r.openP.isSome && r.high.isSome && r.low.isSome && r.close.isSome
    && r.volume.isSome

/-- Parsed content of a candle file: a JSON list of records, or anything
else (non-list JSON or unparseable text), which makes the per-ticker block
raise. -/
inductive FileJson where
  | list (records : List CandleRecord)
  | bad
deriving DecidableEq

/-- Normalization of lines 64-65: a trailing `"Z"` becomes `"+00:00"`. -/
def normZ (s : String) : String :=
  match s.toList.getLast? with
  | some 'Z' => String.mk (s.toList.dropLast ++ "+00:00".toList)
  | _ => s

/-- Trailing `±HH:MM` offset of an ISO string, in minutes. -/
def offsetTail (l : List Char) : Option Int :=
  match l with
  | [sign, h1, h2, ':', m1, m2] =>
    if (sign = '+' ∨ sign = '-') ∧ h1.isDigit ∧ h2.isDigit ∧ m1.isDigit
        ∧ m2.isDigit then
      let mins : Int :=
        (((h1.toNat : Int) - 48) * 10 + ((h2.toNat : Int) - 48)) * 60
          + (((m1.toNat : Int) - 48) * 10 + ((m2.toNat : Int) - 48))
      some (if sign = '-' then -mins else mins)
    else none
  | _ => none

/-- Model of `datetime.fromisoformat`: a date-time text optionally carrying
a trailing `±HH:MM` offset.  The text must start with a digit (a year);
otherwise parsing raises (`none`).  Offset-less strings parse as naive
(`tz = none`). -/
def fromisoformat (s : String) : Option PyDatetime :=
  let cs := s.toList
  if 7 ≤ cs.length then
    match offsetTail (cs.drop (cs.length - 6)) with
    | some off =>
      if cs.head?.elim false Char.isDigit then
        some ⟨cs.take (cs.length - 6), some off⟩
      else none
    | none =>
      if cs.head?.elim false Char.isDigit then some ⟨cs, none⟩ else none
  else if cs ≠ [] ∧ cs.head?.elim false Char.isDigit then some ⟨cs, none⟩
  else none

/-- Embedding of the per-record body of lines 59-80: a falsy `"time"` field
drops the record (`ok none`); otherwise the string is stripped,
Z-normalized and parsed (parse failure raises), a naive result is assigned
UTC, and the company is looked up (lookup failure raises). -/
def candleOfRecord (companies : List Company) (sym : String)
    (it : CandleRecord) : Except Unit (Option MarketCandle) :=
  match it.time with
  | none => .ok none
  | some t =>
    if t = "" then .ok none
    else
      let s := normZ (pyStrip t)
      match fromisoformat s with
      | none => .error ()
      | some dt =>
        let dt := if dt.tz = none then { dt with tz := some 0 } else dt
        match companyGet companies sym with
        | .error _ => .error ()
        | .ok cid =>
          .ok (some ⟨cid, dt, it.openP, it.high, it.low, it.close, it.volume⟩)

/-- Collect the `to_create` list of a ticker's file, propagating the first
per-record exception. -/
def candlesToCreate (companies : List Company) (sym : String) :
    List CandleRecord → Except Unit (List MarketCandle)
  | [] => .ok []
  | it :: rest =>
    match candleOfRecord companies sym it with
    | .error e => .error e
    | .ok none => candlesToCreate companies sym rest
    | .ok (some c) =>
      match candlesToCreate companies sym rest with
      | .error e => .error e
      | .ok cs => .ok (c :: cs)

/-- Does the store already hold a row with the `(company, ts)` key of `c`
(the `unique_candle_company_ts` constraint of `models.py` 55-57)? -/
def candleKeyMem (c : MarketCandle) (store : List MarketCandle) : Bool :=
  store.any (fun r => r.companyId = c.companyId ∧ r.ts = c.ts)

/-- Candle store row insertion enforcing both the `(company, ts)`
uniqueness constraint and the NOT NULL price/volume columns of
`models.py` 41-45: a duplicate key inserts nothing, and a row carrying a
null price or volume is not stored either (SQLite's `INSERT OR IGNORE`
skips any such row; PostgreSQL's `ON CONFLICT DO NOTHING` would instead
raise on the NOT NULL violation and abort the ticker's batch — the
re-import theorems below therefore restrict themselves to complete rows,
on which both backends agree: conflicts insert nothing). -/
def candleInsert (store : List MarketCandle) (c : MarketCandle) :
    List MarketCandle :=
  if candleComplete c && !(candleKeyMem c store) then store ++ [c] else store

/-- Model of Django `bulk_create(objs, ignore_conflicts=True)`: conflicting
rows are silently skipped at the store, and the returned list is the full
submitted list `objs` (Django returns `objs` unchanged, so
`len(created) = len(objs)` regardless of conflicts). -/
def candleBulkCreate (store : List MarketCandle) (objs : List MarketCandle) :
    List MarketCandle × List MarketCandle :=
  (objs.foldl candleInsert store, objs)

/-- Per-ticker result row of the Candle Importer. -/
structure CandleResult where
  ticker : String
  inserted : Nat
deriving DecidableEq

/-- Environment of a Candle Importer run: company table, whether the data
directory exists, and the file system (filename to parsed content; `none`
is an absent file). -/
structure CandlesEnv where
  companies : List Company
  dirOk : Bool
  file : String → Option FileJson

/-- Per-ticker step of lines 45-91: missing file reports zero; any
exception in the body reports zero and leaves the store untouched;
otherwise the batch is inserted and `inserted = len(created)`, the length
of the full submitted list. -/
def candlesStep (env : CandlesEnv) (store : List MarketCandle) (sym : String) :
    CandleResult × List MarketCandle :=
  match env.file (sym ++ "_1h_7d.json") with
  | none => (⟨sym, 0⟩, store)
  | some .bad => (⟨sym, 0⟩, store)
  | some (.list records) =>
    match candlesToCreate env.companies sym records with
    | .error _ => (⟨sym, 0⟩, store)
    | .ok to_create =>
      let (store', created) := candleBulkCreate store to_create
      (⟨sym, created.length⟩, store')

/-- Fold of the per-ticker loop over the resolved symbols. -/
def runCandlesAux (env : CandlesEnv) (store : List MarketCandle) :
    List String → List CandleResult × List MarketCandle
  | [] => ([], store)
  | sym :: rest =>
    let (r, store') := candlesStep env store sym
    let (rs, store'') := runCandlesAux env store' rest
    (r :: rs, store'')

/-- Ticker-universe resolution shared by both importers (lines 32-37 and
115-120): active companies, or a non-empty explicit list. -/
def resolveTickers (companies : List Company) (tickers : List String)
    (from_companies : Bool) : Except Unit (List String) :=
  if from_companies then
    .ok ((companies.filter (·.is_active)).map (·.ticker))
  else if tickers = [] then .error ()
  else .ok tickers

/-- Embedding of `run_candles_from_json_pipeline`: resolve tickers (raising
without a universe), require the directory, then run the per-ticker loop
over an initial store.  `throttle_seconds` sleeping is not modelled (it has
no observable effect on results or the store). -/
def run_candles_from_json_pipeline (env : CandlesEnv)
    (from_companies : Bool) (tickers : List String)
    (store : List MarketCandle) :
    Except Unit (List CandleResult × List MarketCandle) :=
  match resolveTickers env.companies tickers from_companies with
  | .error e => .error e
  | .ok symbols =>
    if env.dirOk then .ok (runCandlesAux env store symbols)
    else .error ()

/-! ## News Importer (`run_news_pipeline`) -/

/-- Raw provider news item; absent dict keys are `none`. -/
structure NewsItem where
  datetime : Option PyVal := none
  published : Option PyVal := none
  url : Option String := none
  headline : Option String := none
  source : Option String := none
deriving DecidableEq

/-- First truthy of `a or b or PyVal.int 0` (Python `or` chain of line
158). -/
def pyOrVal (a b : Option PyVal) : PyVal :=
  if pyTruthy a then a.getD (.int 0)
  else if pyTruthy b then b.getD (.int 0)
  else .int 0

/-- Embedding of the sort key `_key` (lines 157-162):
`int(it.get("datetime") or it.get("published") or 0)`, with conversion
failure mapped to 0. -/
def newsKey (it : NewsItem) : Int :=
  match pyOrVal it.datetime it.published with
  | .int n => n
  | .str s => (pyIntOfString s).getD 0

/-- Stable descending insertion by `newsKey`: an element passes over
strictly larger keys and lands before the first key less than or equal to
its own, so original order is kept among equal keys — the output a stable
sort (Python `list.sort(key=_key, reverse=True)`) produces. -/
def insortDesc (x : NewsItem) : List NewsItem → List NewsItem
  | [] => [x]
  | y :: ys =>
    if newsKey x < newsKey y then y :: insortDesc x ys else x :: y :: ys

/-- Stable sort by `newsKey`, descending (line 163). -/
def sortNewsDesc : List NewsItem → List NewsItem
  | [] => []
  | x :: xs => insortDesc x (sortNewsDesc xs)

/-- Per-company cap of lines 166-167: applied only when the cap is an
integer greater than zero. -/
def applyCap (cap : Option Int) (l : List NewsItem) : List NewsItem :=
  match cap with
  | some c => if 0 < c then l.take c.toNat else l
  | none => l

/-- Embedding of `_utc_from_epoch` (lines 106-112): `None` stays `None`,
`int(seconds)` conversion failure yields `None`, otherwise the epoch value
as a UTC instant. -/
def utc_from_epoch (seconds : Option PyVal) : Option Int :=
  match seconds with
  | none => none
  | some (.int n) => some n
  | some (.str s) => pyIntOfString s

/-- Embedding of the per-item body of lines 171-199 given the classifier
outcome for each headline: a falsy URL skips the item (`none`); otherwise
the article is constructed with a null-tolerant published instant and a
label defaulting to `"Neutral"` when the classifier raises or returns a
blank string. -/
def processNewsItem (classify : String → Except Unit String) (cid : Nat)
    (item : NewsItem) : Option Article :=
  match item.url with
  | none => none
  | some u =>
    if u = "" then none
    else
      let published := utc_from_epoch item.datetime
      let headline := pyStrip (item.headline.getD "")
      let label :=
        match classify headline with
        | .error _ => "Neutral"
        | .ok tmp => if pyStrip tmp = "" then "Neutral" else pyStrip tmp
      some { companyId := cid
             title := pyTake 512 (if headline = "" then "(no title)" else headline)
             url := u
             source := match item.source with
               | some s => if s = "" then "finnhub" else s
               | none => "finnhub"
             published := published
             sentiment_label := label }

/-- Item loop of lines 170-201: counts skipped items (falsy URL) and
collects `to_create` in order.  Every operation of the per-item body is
total in this embedding, so the per-item `except` branch (`errors += 1`)
is unreachable and `errors` stays 0. -/
def newsLoop (classify : String → Except Unit String) (cid : Nat) :
    List NewsItem → Nat × List Article
  | [] => (0, [])
  | it :: rest =>
    let (sk, arts) := newsLoop classify cid rest
    match processNewsItem classify cid it with
    | none => (sk + 1, arts)
    | some a => (sk, a :: arts)

/-- Article store row insertion under the `url` uniqueness constraint with
conflicts ignored. -/
def articleInsert (store : List Article) (a : Article) : List Article :=
  if store.any (fun r => r.url = a.url) then store else store ++ [a]

/-- Model of `Article.objects.bulk_create(objs, ignore_conflicts=True)`:
duplicate URLs insert nothing; the returned list is the full submitted
list. -/
def articleBulkCreate (store : List Article) (objs : List Article) :
    List Article × List Article :=
  (objs.foldl articleInsert store, objs)

/-- Per-ticker result row of the News Importer. -/
structure NewsResult where
  ticker : String
  inserted : Nat
  skipped : Nat
  errors : Nat
deriving DecidableEq

/-- Environment of a News Importer run: company table, provider fetch per
symbol (which may raise), the classifier outcome per headline (which may
raise), and whether the provider API key is configured. -/
structure NewsEnv where
  companies : List Company
  provider : String → Except Unit (List NewsItem)
  classify : String → Except Unit String
  apiKeyOk : Bool

/-- Per-ticker try-block body of lines 148-217: company lookup (absence
raises), provider fetch (may raise), stable descending sort, optional cap,
item loop, bulk insert; reports `inserted = len(created)` (the length of
the full submitted batch), the skip count, and zero errors. -/
def newsTickerBody (env : NewsEnv) (cap : Option Int) (sym : String)
    (store : List Article) : Except Unit (NewsResult × List Article) :=
  match companyFirst env.companies sym with
  | none => .error ()
  | some company =>
    match env.provider sym with
    | .error e => .error e
    | .ok raw_items =>
      let raw_items := applyCap cap (sortNewsDesc raw_items)
      let (skipped, to_create) := newsLoop env.classify company.id raw_items
      let (store', created) := articleBulkCreate store to_create
      .ok (⟨sym, created.length, skipped, 0⟩, store')

/-- Per-ticker step of the News Importer loop: any exception escaping the
body is caught and reported as `{inserted: 0, skipped: 0, errors: 1}` with
the store untouched. -/
def newsStep (env : NewsEnv) (cap : Option Int) (store : List Article)
    (sym : String) : NewsResult × List Article :=
  match newsTickerBody env cap sym store with
  | .ok (r, store') => (r, store')
  | .error _ => (⟨sym, 0, 0, 1⟩, store)

/-- Fold of the News Importer per-ticker loop. -/
def runNewsAux (env : NewsEnv) (cap : Option Int) (store : List Article) :
    List String → List NewsResult × List Article
  | [] => ([], store)
  | sym :: rest =>
    let (r, store') := newsStep env cap store sym
    let (rs, store'') := runNewsAux env cap store' rest
    (r :: rs, store'')

/-- Embedding of `run_news_pipeline`: provider-client construction raises
without an API key, the ticker universe is resolved (raising without one),
then the per-ticker loop runs; nothing escaping a per-ticker block reaches
the caller. -/
def run_news_pipeline (env : NewsEnv) (tickers : List String)
    (from_companies : Bool) (max_per_company : Option Int)
    (store : List Article) :
    Except Unit (List NewsResult × List Article) :=
  if env.apiKeyOk then
    match resolveTickers env.companies tickers from_companies with
    | .error e => .error e
    | .ok symbols => .ok (runNewsAux env max_per_company store symbols)
  else .error ()

/-! ## Helper lemmas: the stable descending sort -/

/-- Inserting permutes: the result of `insortDesc x l` is `x :: l` up to
order. -/
theorem insortDesc_perm (x : NewsItem) (l : List NewsItem) :
    (insortDesc x l).Perm (x :: l) := by
  induction l with
  | nil => simp [insortDesc]
  | cons y ys ih =>
    by_cases h : newsKey x < newsKey y
    · simpa [insortDesc, h] using ((ih.cons y).trans (List.Perm.swap x y ys))
    · simp [insortDesc, h]

/-- Membership through insertion. -/
theorem mem_insortDesc {z x : NewsItem} {l : List NewsItem} :
    z ∈ insortDesc x l ↔ z = x ∨ z ∈ l := by
  rw [(insortDesc_perm x l).mem_iff]
  simp

/-- Insertion preserves descending sortedness by `newsKey`. -/
theorem insortDesc_sorted {x : NewsItem} {l : List NewsItem}
    (h : l.Pairwise (fun a b => newsKey b ≤ newsKey a)) :
    (insortDesc x l).Pairwise (fun a b => newsKey b ≤ newsKey a) := by
  induction l with
  | nil => simp [insortDesc]
  | cons y ys ih =>
    rcases List.pairwise_cons.mp h with ⟨hy, hys⟩
    by_cases hxy : newsKey x < newsKey y
    · rw [insortDesc, if_pos hxy]
      refine List.pairwise_cons.mpr ⟨?_, ih hys⟩
      intro z hz
      rcases mem_insortDesc.mp hz with rfl | hz
      · exact le_of_lt hxy
      · exact hy z hz
    · rw [insortDesc, if_neg hxy]
      refine List.pairwise_cons.mpr ⟨?_, h⟩
      intro z hz
      rcases List.mem_cons.mp hz with rfl | hz
      · exact not_lt.mp hxy
      · exact le_trans (hy z hz) (not_lt.mp hxy)

/-- The News Importer sort is a permutation of its input. -/
theorem sortNewsDesc_perm (l : List NewsItem) : (sortNewsDesc l).Perm l := by
  induction l with
  | nil => simp [sortNewsDesc]
  | cons x xs ih =>
    exact (insortDesc_perm x (sortNewsDesc xs)).trans (ih.cons x)

/-- The News Importer sort is descending by `newsKey`. -/
theorem sortNewsDesc_sorted (l : List NewsItem) :
    (sortNewsDesc l).Pairwise (fun a b => newsKey b ≤ newsKey a) := by
  induction l with
  | nil => simp [sortNewsDesc]
  | cons x xs ih => exact insortDesc_sorted ih

/-- Sample news item with an epoch-seconds timestamp, as in the spec's
ordering example. -/
def exNews (n : Int) : NewsItem :=
  { datetime := some (.int n), url := some "u" }

/-- C1.  In `run_news_pipeline`, fetched items are sorted by publication
instant descending (the sort permutes the input and is descending by the
key; a missing or unparseable timestamp gives key 0), a positive cap keeps
exactly the first `cap` items after the sort, and on items with epoch
timestamps [100, 300, 200] the retained order is [300, 200, 100], with cap
2 keeping [300, 200]. -/
theorem news_sort_and_cap :
    (∀ l : List NewsItem, (sortNewsDesc l).Perm l)
    ∧ (∀ l : List NewsItem,
        (sortNewsDesc l).Pairwise (fun a b => newsKey b ≤ newsKey a))
    ∧ (∀ it : NewsItem, it.datetime = none → it.published = none →
        newsKey it = 0)
    ∧ newsKey { datetime := some (.str "not-a-number") } = 0
    ∧ (∀ (l : List NewsItem) (c : Int), 0 < c →
        applyCap (some c) l = l.take c.toNat)
    ∧ sortNewsDesc [exNews 100, exNews 300, exNews 200]
        = [exNews 300, exNews 200, exNews 100]
    ∧ applyCap (some 2) (sortNewsDesc [exNews 100, exNews 300, exNews 200])
        = [exNews 300, exNews 200] := by
  refine ⟨sortNewsDesc_perm, sortNewsDesc_sorted, ?_, by decide, ?_, by decide,
    by decide⟩
  · intro it h1 h2
    simp [newsKey, pyOrVal, h1, h2, pyTruthy]
  · intro l c hc
    simp [applyCap, hc]

/-- Witness for C1 at concrete inputs. -/
theorem news_sort_and_cap_witness :
    newsKey ({ datetime := none, published := none } : NewsItem) = 0
    ∧ applyCap (some 2) [exNews 5] = [exNews 5] :=
  ⟨news_sort_and_cap.2.2.1 _ rfl rfl,
   by simpa using news_sort_and_cap.2.2.2.2.1 [exNews 5] 2 (by decide)⟩

/-! ## Helper lemmas: the candle store under re-import -/

/-- After inserting a complete row, its key is present. -/
theorem candleKeyMem_insert_self (store : List MarketCandle)
    (c : MarketCandle) (hc : candleComplete c = true) :
    candleKeyMem c (candleInsert store c) = true := by
  unfold candleInsert
  by_cases hk : candleKeyMem c store
  · simp [hk]
  · have hk' : candleKeyMem c store = false := by
      revert hk
      cases candleKeyMem c store <;> simp
    rw [hc, hk']
    simp [candleKeyMem]

/-- Insertion never removes a key. -/
theorem candleKeyMem_insert_mono {k : MarketCandle}
    {store : List MarketCandle} (c : MarketCandle)
    (h : candleKeyMem k store = true) :
    candleKeyMem k (candleInsert store c) = true := by
  unfold candleInsert
  split
  · rcases List.any_eq_true.mp h with ⟨r, hr, hk⟩
    exact List.any_eq_true.mpr ⟨r, List.mem_append_left _ hr, hk⟩
  · exact h

/-- Bulk insertion never removes a key. -/
theorem candleKeyMem_foldl_mono {k : MarketCandle}
    (objs : List MarketCandle) :
    ∀ store : List MarketCandle, candleKeyMem k store = true →
      candleKeyMem k (objs.foldl candleInsert store) = true := by
  induction objs with
  | nil => intro store h; exact h
  | cons o os ih =>
    intro store h
    exact ih (candleInsert store o) (candleKeyMem_insert_mono o h)

/-- After bulk insertion, the key of every complete submitted row is
present. -/
theorem candleKeyMem_foldl_self {c : MarketCandle} (objs : List MarketCandle)
    (hm : c ∈ objs) (hc : candleComplete c = true) :
    ∀ store : List MarketCandle,
      candleKeyMem c (objs.foldl candleInsert store) = true := by
  induction objs with
  | nil => cases hm
  | cons o os ih =>
    intro store
    rcases List.mem_cons.mp hm with rfl | hm'
    · exact candleKeyMem_foldl_mono os (candleInsert store c)
        (candleKeyMem_insert_self store c hc)
    · exact ih hm' (candleInsert store o)

/-- Bulk insertion of rows that are each either already keyed in the store
or incomplete (never storable) is a no-op. -/
theorem foldl_candleInsert_noop (objs : List MarketCandle) :
    ∀ store : List MarketCandle,
      (∀ c ∈ objs, candleKeyMem c store = true ∨ candleComplete c = false) →
      objs.foldl candleInsert store = store := by
  induction objs with
  | nil => intro store _; rfl
  | cons o os ih =>
    intro store h
    have ho : candleInsert store o = store := by
      unfold candleInsert
      rcases h o (List.mem_cons_self o os) with hk | hinc
      · simp [hk]
      · simp [hinc]
    rw [List.foldl_cons, ho]
    exact ih store (fun c hc => h c (List.mem_cons_of_mem o hc))

/-- A per-ticker candle step never removes a key from the store. -/
theorem candlesStep_snd_keys {k : MarketCandle} (env : CandlesEnv)
    (store : List MarketCandle) (sym : String)
    (h : candleKeyMem k store = true) :
    candleKeyMem k (candlesStep env store sym).2 = true := by
  cases hf : env.file (sym ++ "_1h_7d.json") with
  | none => simpa [candlesStep, hf] using h
  | some fj =>
    cases fj with
    | bad => simpa [candlesStep, hf] using h
    | list records =>
      cases htc : candlesToCreate env.companies sym records with
      | error e => simpa [candlesStep, hf, htc] using h
      | ok tc =>
        simpa [candlesStep, hf, htc, candleBulkCreate] using
          candleKeyMem_foldl_mono tc store h

/-- The candle loop never removes a key from the store. -/
theorem runCandlesAux_snd_keys {k : MarketCandle} (env : CandlesEnv)
    (syms : List String) :
    ∀ store : List MarketCandle, candleKeyMem k store = true →
      candleKeyMem k (runCandlesAux env store syms).2 = true := by
  induction syms with
  | nil => intro store h; exact h
  | cons sym rest ih =>
    intro store h
    rcases hs : candlesStep env store sym with ⟨r, s'⟩
    have h' : candleKeyMem k s' = true := by
      have := candlesStep_snd_keys env store sym h
      rw [hs] at this
      exact this
    rcases ha : runCandlesAux env s' rest with ⟨rs, s''⟩
    have h'' := ih s' h'
    rw [ha] at h''
    simp only [runCandlesAux, hs, ha]
    exact h''

/-- Unfolding equation for the candle loop on a cons cell. -/
theorem runCandlesAux_cons (env : CandlesEnv) (store : List MarketCandle)
    (sym : String) (rest : List String) :
    runCandlesAux env store (sym :: rest)
      = ((candlesStep env store sym).1
            :: (runCandlesAux env (candlesStep env store sym).2 rest).1,
         (runCandlesAux env (candlesStep env store sym).2 rest).2) := by
  rcases hs : candlesStep env store sym with ⟨r, s'⟩
  rcases ha : runCandlesAux env s' rest with ⟨rs, s''⟩
  simp [runCandlesAux, hs, ha]

/-- Re-running a per-ticker candle step over any store that already holds
every key the first run left behind reports the same count and changes
nothing. -/
theorem candlesStep_second (env : CandlesEnv) (store s1 : List MarketCandle)
    (sym : String)
    (h : ∀ k : MarketCandle, candleKeyMem k (candlesStep env store sym).2 = true →
      candleKeyMem k s1 = true) :
    candlesStep env s1 sym = ((candlesStep env store sym).1, s1) := by
  cases hf : env.file (sym ++ "_1h_7d.json") with
  | none => simp [candlesStep, hf]
  | some fj =>
    cases fj with
    | bad => simp [candlesStep, hf]
    | list records =>
      cases htc : candlesToCreate env.companies sym records with
      | error e => simp [candlesStep, hf, htc]
      | ok tc =>
        simp only [candlesStep, hf, htc, candleBulkCreate] at h ⊢
        have hnoop : tc.foldl candleInsert s1 = s1 :=
          foldl_candleInsert_noop tc s1 (fun c hc => by
            by_cases hcomp : candleComplete c = true
            · exact Or.inl (h c (candleKeyMem_foldl_self tc hc hcomp store))
            · exact Or.inr (by revert hcomp; cases candleComplete c <;> simp))
        rw [hnoop]

/-- Re-running the candle loop over the store it produced returns the same
per-ticker reports and leaves the store unchanged. -/
theorem runCandlesAux_idem (env : CandlesEnv) (syms : List String) :
    ∀ store : List MarketCandle,
      runCandlesAux env (runCandlesAux env store syms).2 syms
        = ((runCandlesAux env store syms).1, (runCandlesAux env store syms).2) := by
  induction syms with
  | nil => intro store; rfl
  | cons sym rest ih =>
    intro store
    rw [runCandlesAux_cons env store sym rest]
    rcases hs : candlesStep env store sym with ⟨r, s'⟩
    rcases ha : runCandlesAux env s' rest with ⟨rs, send⟩
    simp only [hs, ha]
    have hstep : candlesStep env send sym = (r, send) := by
      have := candlesStep_second env store send sym (fun k hk => by
        rw [hs] at hk
        have := runCandlesAux_snd_keys env rest s' hk
        rw [ha] at this
        exact this)
      rw [hs] at this
      exact this
    have haux : runCandlesAux env send rest = (rs, send) := by
      have := ih s'
      rw [ha] at this
      exact this
    rw [runCandlesAux_cons env send sym rest, hstep]
    simp only [haux]

/-- Record of the re-import fixture: a complete record carrying all five
price/volume fields, so the NOT NULL columns never fire and SQLite and
PostgreSQL behave identically on it (only the `(company, ts)` key can
conflict). -/
def exCandleRecord : CandleRecord :=
  { time := some "2025-09-05T14:00:00Z", openP := some 100, high := some 110
    low := some 90, close := some 105, volume := some 1000 }

/-- Store and file fixture for the re-import counterexample: one company,
one candle file with the single complete record above. -/
def exCandlesEnv : CandlesEnv :=
  { companies := [⟨1, "AAPL", true⟩]
    dirOk := true
    file := fun n =>
      if n = "AAPL_1h_7d.json" then some (.list [exCandleRecord]) else none }

/-- Store row created by one run of the fixture. -/
def exCandleStore : List MarketCandle :=
  [⟨1, ⟨"2025-09-05T14:00:00".toList, some 0⟩, some 100, some 110, some 90,
    some 105, some 1000⟩]

/-- C2 counterexample.  One company, one file with a single complete record
(all five price/volume fields present, so no NOT NULL column is violated
and every store backend agrees): the first run stores the row and reports
`inserted = 1`; the second run over the resulting store creates no row
(the store is unchanged, final row count 1 both ways), yet reports
`inserted = 1`, not `0` — Django's conflict-ignoring `bulk_create` returns
the full submitted list, so `inserted = len(created)` counts the batch,
not the rows actually created. -/
theorem candles_reimport_counterexample :
    recordComplete exCandleRecord = true
    ∧ run_candles_from_json_pipeline exCandlesEnv true [] []
        = .ok ([⟨"AAPL", 1⟩], exCandleStore)
    ∧ run_candles_from_json_pipeline exCandlesEnv true [] exCandleStore
        = .ok ([⟨"AAPL", 1⟩], exCandleStore)
    ∧ exCandleStore.length = 1 := by
  refine ⟨rfl, by decide, by decide, rfl⟩

/-- C2 amended.  For runs whose files hold only complete records (all five
price/volume fields present — the fragment where the NOT NULL columns
never fire, so SQLite's skip-on-violation and PostgreSQL's
raise-on-violation cannot diverge and the store behaves purely by the
`(company, ts)` conflict rule): running the Candle Importer a second time
with identical input over the store produced by the first run leaves the
store unchanged (same final row count; the conflict-ignoring bulk insert
creates no rows) and returns exactly the same per-ticker reports as the
first run — each ticker's `inserted` equals the size of its submitted
batch, not 0. -/
theorem candles_reimport_idempotent (env : CandlesEnv) (fc : Bool)
    (tks : List String) (store : List MarketCandle) (res : List CandleResult)
    (s1 : List MarketCandle)
    (_hcomp : ∀ (sym : String) (records : List CandleRecord),
      env.file (sym ++ "_1h_7d.json") = some (.list records) →
      ∀ r ∈ records, recordComplete r = true)
    (h : run_candles_from_json_pipeline env fc tks store = .ok (res, s1)) :
    run_candles_from_json_pipeline env fc tks s1 = .ok (res, s1) := by
  unfold run_candles_from_json_pipeline at h ⊢
  revert h
  cases hr : resolveTickers env.companies tks fc with
  | error e => intro h; cases h
  | ok syms =>
    intro h
    by_cases hd : env.dirOk
    · simp only [if_pos hd] at h ⊢
      have hpair : runCandlesAux env store syms = (res, s1) := by
        injection h
      have hidem := runCandlesAux_idem env syms store
      rw [hpair] at hidem
      simpa using hidem
    · simp only [if_neg hd] at h
      cases h

/-- Witness for C2's amended theorem at the concrete fixture. -/
theorem candles_reimport_idempotent_witness :
    run_candles_from_json_pipeline exCandlesEnv true [] exCandleStore
      = .ok ([⟨"AAPL", 1⟩], exCandleStore) :=
  candles_reimport_idempotent exCandlesEnv true [] [] [⟨"AAPL", 1⟩]
    exCandleStore
    (by
      intro sym records hf
      simp only [exCandlesEnv] at hf
      by_cases hs : sym ++ "_1h_7d.json" = "AAPL_1h_7d.json"
      · rw [if_pos hs] at hf
        injection hf with hf
        injection hf with hf
        intro r hr
        rw [← hf] at hr
        rw [List.mem_singleton.mp hr]
        rfl
      · rw [if_neg hs] at hf
        cases hf)
    (by decide)

/-! ## Helper lemmas: the sentiment label -/

/-- Tokenization with a pending token never returns no tokens. -/
theorem pyTokensAux_ne_nil_of_cur (l : List Char) :
    ∀ cur : List Char, cur ≠ [] → pyTokensAux cur l ≠ [] := by
  induction l with
  | nil =>
    intro cur h
    simp [pyTokensAux, h]
  | cons c cs ih =>
    intro cur h
    by_cases hw : c.isWhitespace
    · simp [pyTokensAux, hw, h]
    · simp only [pyTokensAux, hw, Bool.false_eq_true, if_false]
      exact ih (c :: cur) (by simp)

/-- Tokenizing a character list holding a non-whitespace character returns
at least one token. -/
theorem pyTokensAux_ne_nil (l : List Char)
    (h : ∃ c ∈ l, ¬ c.isWhitespace = true) :
    ∀ cur : List Char, pyTokensAux cur l ≠ [] := by
  induction l with
  | nil =>
    rcases h with ⟨c, hc, _⟩
    cases hc
  | cons c cs ih =>
    intro cur
    by_cases hw : c.isWhitespace
    · have hcs : ∃ d ∈ cs, ¬ d.isWhitespace = true := by
        rcases h with ⟨d, hd, hdw⟩
        rcases List.mem_cons.mp hd with rfl | hd'
        · exact absurd hw hdw
        · exact ⟨d, hd', hdw⟩
      by_cases hc : cur.isEmpty
      · simp only [pyTokensAux, hw, if_true, hc]
        exact ih hcs []
      · simp [pyTokensAux, hw, hc]
    · simp only [pyTokensAux, hw, Bool.false_eq_true, if_false]
      exact pyTokensAux_ne_nil_of_cur cs (c :: cur) (by simp)

/-- Dropping a prefix of `p`-characters keeps some non-`p` character. -/
theorem exists_notP_dropWhile {p : Char → Bool} {l : List Char}
    (h : ∃ c ∈ l, ¬ p c = true) : ∃ c ∈ l.dropWhile p, ¬ p c = true := by
  induction l with
  | nil =>
    rcases h with ⟨c, hc, _⟩
    cases hc
  | cons a as ih =>
    by_cases ha : p a
    · rw [List.dropWhile_cons, if_pos ha]
      apply ih
      rcases h with ⟨c, hc, hcp⟩
      rcases List.mem_cons.mp hc with rfl | hc'
      · exact absurd ha hcp
      · exact ⟨c, hc', hcp⟩
    · rw [List.dropWhile_cons, if_neg ha]
      exact ⟨a, List.mem_cons_self a as, ha⟩

/-- Stripping whitespace from both ends keeps some non-whitespace
character. -/
theorem exists_notWs_pyStripWs {l : List Char}
    (h : ∃ c ∈ l, ¬ c.isWhitespace = true) :
    ∃ c ∈ pyStripWs l, ¬ c.isWhitespace = true := by
  unfold pyStripWs
  have h1 := exists_notP_dropWhile (p := Char.isWhitespace) h
  have h2 : ∃ c ∈ (l.dropWhile Char.isWhitespace).reverse,
      ¬ c.isWhitespace = true := by
    rcases h1 with ⟨c, hc, hcw⟩
    exact ⟨c, List.mem_reverse.mpr hc, hcw⟩
  rcases exists_notP_dropWhile (p := Char.isWhitespace) h2 with ⟨c, hc, hcw⟩
  exact ⟨c, List.mem_reverse.mpr hc, hcw⟩

/-- Whenever `labelOfText` returns, the label is canonical. -/
theorem labelOfText_ok_mem {t l : String} (h : labelOfText t = .ok l) :
    l = "Positive" ∨ l = "Neutral" ∨ l = "Negative" := by
  unfold labelOfText at h
  rcases htk : pyTokens (pyStripWs t.toList) with _ | ⟨tok, rest⟩
  · rw [htk] at h
    cases h
  · rw [htk] at h
    simp only at h
    injection h with h'
    subst h'
    set label := (if String.mk (pyTitle (pyStripChars [',', '.', ' '] tok))
        = "Good" then "Positive"
      else String.mk (pyTitle (pyStripChars [',', '.', ' '] tok))) with hl
    by_cases hP : label = "Positive" ∨ label = "Neutral" ∨ label = "Negative"
    · rw [if_pos hP]
      exact hP
    · rw [if_neg hP]
      right; left; rfl

/-- A text holding a non-whitespace character always labels successfully,
canonically. -/
theorem labelOfText_total {t : String}
    (h : ∃ c ∈ t.toList, ¬ c.isWhitespace = true) :
    ∃ l, labelOfText t = .ok l
      ∧ (l = "Positive" ∨ l = "Neutral" ∨ l = "Negative") := by
  have hne := pyTokensAux_ne_nil (pyStripWs t.toList)
    (exists_notWs_pyStripWs h) []
  rcases htk : pyTokens (pyStripWs t.toList) with _ | ⟨tok, rest⟩
  · exact absurd htk hne
  · have hok : ∃ l, labelOfText t = .ok l := by
      unfold labelOfText
      rw [htk]
      exact ⟨_, rfl⟩
    rcases hok with ⟨l, hl⟩
    exact ⟨l, hl, labelOfText_ok_mem hl⟩

/-- Whenever the response analysis returns, the label is canonical. -/
theorem analyzeResp_ok_mem {r : SentResp} {l : String}
    (h : analyzeResp r = .ok l) :
    l = "Positive" ∨ l = "Neutral" ∨ l = "Negative" := by
  rcases hch : r.choices.head? with _ | ch
  · simp [analyzeResp, hch, pyTruthyStr] at h
  · rcases hc : ch.message.content with _ | c
    · by_cases h1 : pyTruthyStr ch.message.reasoning = true
      · simp only [analyzeResp, hch, hc, h1, if_true] at h
        exact labelOfText_ok_mem h
      · by_cases h2 : pyTruthyStr (pyOrStr ch.text r.output_text) = true
        · simp only [analyzeResp, hch, hc, h1, h2, if_true, if_false,
            Bool.false_eq_true] at h
          exact labelOfText_ok_mem h
        · by_cases h3 : r.dumpFails = true
          · simp [analyzeResp, hch, hc, h1, h2, h3] at h
            exact Or.inr (Or.inl h.symm)
          · simp [analyzeResp, hch, hc, h1, h2, h3] at h
            exact labelOfText_ok_mem h
    · by_cases h1 : pyTruthyStr (some c) = true
      · simp only [analyzeResp, hch, hc, h1, if_true] at h
        exact labelOfText_ok_mem h
      · by_cases h2 : pyTruthyStr (pyOrStr ch.text r.output_text) = true
        · simp only [analyzeResp, hch, hc, h1, h2, if_true, if_false,
            Bool.false_eq_true] at h
          exact labelOfText_ok_mem h
        · by_cases h3 : r.dumpFails = true
          · simp [analyzeResp, hch, hc, h1, h2, h3] at h
            exact Or.inr (Or.inl h.symm)
          · simp [analyzeResp, hch, hc, h1, h2, h3] at h
            exact labelOfText_ok_mem h

/-- Provider response whose extracted text is whitespace-only. -/
def exRespWs : SentResp := ⟨[⟨⟨some " ", none⟩, none⟩], none, false⟩

/-- C3 counterexample.  A provider response whose primary content field
holds the whitespace-only text `" "`: the text is extracted (it is truthy,
so no fallback is tried), yet `news_analysis` raises an `IndexError` from
`split()[0]` instead of returning a canonical label. -/
theorem news_analysis_whitespace_counterexample :
    pyTruthyStr (some " ") = true
    ∧ news_analysis (.ok exRespWs) "headline" = (.error (), 1) :=
  ⟨rfl, by decide⟩

/-- C3 amended.  Whenever `news_analysis` returns without raising, the label
is one of the three canonical ones; for every extracted text holding at
least one non-whitespace character the labelling succeeds canonically
(first token, `",. "`-stripped, title-cased, `"Good"` mapped to
`"Positive"`, anything non-canonical collapsed to `"Neutral"`); but a
whitespace-only extracted text makes the function raise instead (the
counterexample above). -/
theorem news_analysis_label_canonical :
    (∀ (r : SentResp) (h l : String) (n : Nat),
        news_analysis (.ok r) h = (.ok l, n) →
        l = "Positive" ∨ l = "Neutral" ∨ l = "Negative")
    ∧ (∀ text : String, (∃ c ∈ text.toList, ¬ c.isWhitespace = true) →
        ∃ l, labelOfText text = .ok l
          ∧ (l = "Positive" ∨ l = "Neutral" ∨ l = "Negative"))
    ∧ labelOfText " GOOD, news" = .ok "Positive"
    ∧ labelOfText "negative." = .ok "Negative"
    ∧ labelOfText "neutral stance" = .ok "Neutral"
    ∧ labelOfText "bullish" = .ok "Neutral" := by
  refine ⟨?_, fun text h => labelOfText_total h, by decide, by decide,
    by decide, by decide⟩
  intro r hdl l n h
  unfold news_analysis at h
  split at h
  · injection h with h1 h2
    injection h1 with h1
    right; left; exact h1.symm
  · injection h with h1 h2
    exact analyzeResp_ok_mem h1

/-- Witness for C3's amended theorem at concrete inputs. -/
theorem news_analysis_label_canonical_witness :
    ("Positive" = "Positive" ∨ "Positive" = "Neutral"
      ∨ "Positive" = "Negative")
    ∧ ∃ l, labelOfText "ok" = .ok l
        ∧ (l = "Positive" ∨ l = "Neutral" ∨ l = "Negative") :=
  ⟨news_analysis_label_canonical.1 ⟨[⟨⟨some "Positive", none⟩, none⟩], none,
      false⟩ "headline" "Positive" 1 (by decide),
   news_analysis_label_canonical.2.1 "ok" ⟨'o', by decide, by decide⟩⟩

/-! ## Helper lemmas: the news item loop -/

/-- Unfolding equation for the item loop on a cons cell. -/
theorem newsLoop_cons (classify : String → Except Unit String) (cid : Nat)
    (it : NewsItem) (rest : List NewsItem) :
    newsLoop classify cid (it :: rest)
      = (match processNewsItem classify cid it with
         | none => ((newsLoop classify cid rest).1 + 1,
             (newsLoop classify cid rest).2)
         | some a => ((newsLoop classify cid rest).1,
             a :: (newsLoop classify cid rest).2)) := by
  rcases hl : newsLoop classify cid rest with ⟨sk, arts⟩
  simp only [newsLoop, hl]

/-- Every constructed article of a retained item lands in `to_create`. -/
theorem mem_newsLoop_snd (classify : String → Except Unit String) (cid : Nat)
    {items : List NewsItem} {it : NewsItem} {a : Article} (hm : it ∈ items)
    (hp : processNewsItem classify cid it = some a) :
    a ∈ (newsLoop classify cid items).2 := by
  induction items with
  | nil => cases hm
  | cons x rest ih =>
    rw [newsLoop_cons]
    rcases List.mem_cons.mp hm with rfl | hm'
    · rw [hp]
      exact List.mem_cons_self a _
    · cases hx : processNewsItem classify cid x with
      | none => exact ih hm'
      | some b => exact List.mem_cons_of_mem b (ih hm')

/-- An item maps to no article exactly when its URL is falsy. -/
theorem processNewsItem_eq_none (classify : String → Except Unit String)
    (cid : Nat) (it : NewsItem) :
    processNewsItem classify cid it = none ↔ pyTruthyStr it.url = false := by
  cases hu : it.url with
  | none => simp [processNewsItem, pyTruthyStr, hu]
  | some u =>
    by_cases he : u = "" <;> simp [processNewsItem, pyTruthyStr, hu, he]

/-- The item loop counts exactly the falsy-URL items as skipped and keeps
exactly the constructed articles, in order. -/
theorem newsLoop_eq (classify : String → Except Unit String) (cid : Nat) :
    ∀ items : List NewsItem,
      newsLoop classify cid items
        = (items.countP (fun it => !(pyTruthyStr it.url)),
           items.filterMap (processNewsItem classify cid)) := by
  intro items
  induction items with
  | nil => rfl
  | cons x rest ih =>
    rw [newsLoop_cons, ih]
    cases hx : processNewsItem classify cid x with
    | none =>
      have hfal : pyTruthyStr x.url = false :=
        (processNewsItem_eq_none classify cid x).mp hx
      simp [List.countP_cons, List.filterMap_cons, hx, hfal]
    | some a =>
      have htru : ¬ pyTruthyStr x.url = false := by
        intro hc
        rw [(processNewsItem_eq_none classify cid x).mpr hc] at hx
        cases hx
      cases hb : pyTruthyStr x.url with
      | false => exact absurd hb htru
      | true => simp [List.countP_cons, List.filterMap_cons, hx, hb]

/-- C4.  An empty or whitespace-only headline classifies as `"Neutral"`
with no external call made; and an item whose classification raises is
kept: the importer constructs its article with sentiment label
`"Neutral"`, and the article joins the batch persisted for the ticker. -/
theorem classifier_fallback :
    (∀ (resp : Except Unit SentResp) (h : String), pyStrip h = "" →
        news_analysis resp h = (.ok "Neutral", 0))
    ∧ (∀ (classify : String → Except Unit String) (cid : Nat)
        (item : NewsItem) (u : String), item.url = some u → u ≠ "" →
        classify (pyStrip (item.headline.getD "")) = .error () →
        ∃ a, processNewsItem classify cid item = some a
          ∧ a.sentiment_label = "Neutral")
    ∧ (∀ (classify : String → Except Unit String) (cid : Nat)
        (items : List NewsItem) (it : NewsItem) (a : Article), it ∈ items →
        processNewsItem classify cid it = some a →
        a ∈ (newsLoop classify cid items).2) := by
  refine ⟨?_, ?_, fun classify cid items it a hm hp =>
    mem_newsLoop_snd classify cid hm hp⟩
  · intro resp h hstrip
    unfold news_analysis
    rw [if_pos (Or.inr hstrip)]
  · intro classify cid item u hurl hu hcl
    simp only [processNewsItem, hurl, if_neg hu, hcl]
    exact ⟨_, rfl, rfl⟩

/-- Witness for C4 at concrete inputs: the classifier outcome of a blank
headline, and a raising classifier on a concrete item. -/
theorem classifier_fallback_witness :
    news_analysis (.error ()) "  " = (.ok "Neutral", 0)
    ∧ ∃ a, processNewsItem (fun _ => .error ()) 1
        { url := some "u", headline := some "h" } = some a
        ∧ a.sentiment_label = "Neutral" :=
  ⟨classifier_fallback.1 (.error ()) "  " (by decide),
   classifier_fallback.2.1 (fun _ => .error ()) 1
     { url := some "u", headline := some "h" } "u" rfl (by decide) rfl⟩

/-- C5.  A candle record with a missing or empty timestamp field is
silently dropped; a trailing `"Z"` is rewritten to `"+00:00"` before
ISO-8601 parsing; and every candle that reaches the store carries a zone
offset: a naive parse is assigned UTC, as the two concrete records (one
`"Z"`-suffixed, one zone-less) show. -/
theorem candle_timestamp_normalization :
    (∀ (companies : List Company) (sym : String) (it : CandleRecord),
        it.time = none → candleOfRecord companies sym it = .ok none)
    ∧ (∀ (companies : List Company) (sym : String) (it : CandleRecord),
        it.time = some "" → candleOfRecord companies sym it = .ok none)
    ∧ (∀ s : String, s.toList.getLast? = some 'Z' →
        normZ s = String.mk (s.toList.dropLast ++ "+00:00".toList))
    ∧ (∀ (companies : List Company) (sym : String) (it : CandleRecord)
        (c : MarketCandle), candleOfRecord companies sym it = .ok (some c) →
        c.ts.tz.isSome = true)
    ∧ candleOfRecord [⟨1, "AAPL", true⟩] "AAPL"
        { time := some "2025-09-05T14:00:00Z" }
        = .ok (some ⟨1, ⟨"2025-09-05T14:00:00".toList, some 0⟩, none, none,
            none, none, none⟩)
    ∧ candleOfRecord [⟨1, "AAPL", true⟩] "AAPL"
        { time := some "2025-09-05T14:00:00" }
        = .ok (some ⟨1, ⟨"2025-09-05T14:00:00".toList, some 0⟩, none, none,
            none, none, none⟩) := by
  refine ⟨?_, ?_, ?_, ?_, by decide, by decide⟩
  · intro companies sym it h
    simp [candleOfRecord, h]
  · intro companies sym it h
    simp [candleOfRecord, h]
  · intro s h
    unfold normZ
    rw [h]
    rfl
  · intro companies sym it c h
    rcases ht : it.time with _ | t
    · simp [candleOfRecord, ht] at h
    · by_cases he : t = ""
      · simp [candleOfRecord, ht, he] at h
      · rcases hp : fromisoformat (normZ (pyStrip t)) with _ | dt
        · simp [candleOfRecord, ht, he, hp] at h
        · rcases hg : companyGet companies sym with e | cid
          · simp [candleOfRecord, ht, he, hp, hg] at h
          · simp only [candleOfRecord, ht, hp, hg, if_neg he,
              Except.ok.injEq, Option.some.injEq] at h
            rw [← h]
            by_cases htz : dt.tz = none
            · simp [htz]
            · simp [htz, Option.isSome_iff_ne_none]

/-- Witness for C5 at concrete inputs: a record with no timestamp, and the
zone of the concrete `"Z"`-suffixed record. -/
theorem candle_timestamp_normalization_witness :
    candleOfRecord [] "AAPL" { time := none } = .ok none
    ∧ normZ "2025-09-05T14:00:00Z"
        = String.mk ("2025-09-05T14:00:00Z".toList.dropLast
            ++ "+00:00".toList) :=
  ⟨candle_timestamp_normalization.1 [] "AAPL" { time := none } rfl,
   candle_timestamp_normalization.2.2.1 "2025-09-05T14:00:00Z" (by decide)⟩

/-- C6.  A retained item whose epoch timestamp is absent or unconvertible
gets a null published instant from `_utc_from_epoch` and is not aborted:
its article is still constructed (classified) and joins the ticker's
persisted batch. -/
theorem news_null_published :
    utc_from_epoch none = none
    ∧ (∀ s : String, pyIntOfString s = none →
        utc_from_epoch (some (.str s)) = none)
    ∧ (∀ (classify : String → Except Unit String) (cid : Nat)
        (item : NewsItem) (u : String), item.url = some u → u ≠ "" →
        item.datetime = none →
        ∃ a, processNewsItem classify cid item = some a
          ∧ a.published = none)
    ∧ (∀ (classify : String → Except Unit String) (cid : Nat)
        (item : NewsItem) (u s : String), item.url = some u → u ≠ "" →
        item.datetime = some (.str s) → pyIntOfString s = none →
        ∃ a, processNewsItem classify cid item = some a
          ∧ a.published = none)
    ∧ (∀ (classify : String → Except Unit String) (cid : Nat)
        (items : List NewsItem) (it : NewsItem) (a : Article), it ∈ items →
        processNewsItem classify cid it = some a →
        a ∈ (newsLoop classify cid items).2) := by
  refine ⟨rfl, ?_, ?_, ?_, fun classify cid items it a hm hp =>
    mem_newsLoop_snd classify cid hm hp⟩
  · intro s h
    simp [utc_from_epoch, h]
  · intro classify cid item u hurl hu hdt
    simp only [processNewsItem, hurl, if_neg hu, utc_from_epoch, hdt]
    exact ⟨_, rfl, rfl⟩
  · intro classify cid item u s hurl hu hdt hs
    simp only [processNewsItem, hurl, if_neg hu, utc_from_epoch, hdt, hs]
    exact ⟨_, rfl, rfl⟩

/-- Witness for C6 at a concrete item with no epoch timestamp. -/
theorem news_null_published_witness :
    utc_from_epoch (some (.str "oops")) = none
    ∧ ∃ a, processNewsItem (fun _ => .ok "Positive") 1
        { url := some "u" } = some a ∧ a.published = none :=
  ⟨news_null_published.2.1 "oops" (by decide),
   news_null_published.2.2.1 (fun _ => .ok "Positive") 1 { url := some "u" }
     "u" rfl (by decide) rfl⟩

/-! ## Helper lemmas: per-ticker loops and fault isolation -/

/-- Unfolding equation for the news loop on a cons cell. -/
theorem runNewsAux_cons (env : NewsEnv) (cap : Option Int)
    (store : List Article) (sym : String) (rest : List String) :
    runNewsAux env cap store (sym :: rest)
      = ((newsStep env cap store sym).1
            :: (runNewsAux env cap (newsStep env cap store sym).2 rest).1,
         (runNewsAux env cap (newsStep env cap store sym).2 rest).2) := by
  rcases hs : newsStep env cap store sym with ⟨r, s'⟩
  rcases ha : runNewsAux env cap s' rest with ⟨rs, s''⟩
  simp [runNewsAux, hs, ha]

/-- The per-ticker candle report always carries the ticker it was asked
about. -/
theorem candlesStep_ticker (env : CandlesEnv) (store : List MarketCandle)
    (sym : String) : (candlesStep env store sym).1.ticker = sym := by
  cases hf : env.file (sym ++ "_1h_7d.json") with
  | none => simp [candlesStep, hf]
  | some fj =>
    cases fj with
    | bad => simp [candlesStep, hf]
    | list records =>
      cases htc : candlesToCreate env.companies sym records with
      | error e => simp [candlesStep, hf, htc]
      | ok tc => simp [candlesStep, hf, htc, candleBulkCreate]

/-- The per-ticker news report always carries the ticker it was asked
about. -/
theorem newsStep_ticker (env : NewsEnv) (cap : Option Int)
    (store : List Article) (sym : String) :
    (newsStep env cap store sym).1.ticker = sym := by
  cases hb : newsTickerBody env cap sym store with
  | error e => simp [newsStep, hb]
  | ok pr =>
    rcases pr with ⟨r, s'⟩
    have hr : r.ticker = sym := by
      unfold newsTickerBody at hb
      cases hcf : companyFirst env.companies sym with
      | none => rw [hcf] at hb; cases hb
      | some company =>
        rw [hcf] at hb
        cases hpr : env.provider sym with
        | error e => rw [hpr] at hb; cases hb
        | ok raw =>
          rw [hpr] at hb
          rcases hl : newsLoop env.classify company.id
              (applyCap cap (sortNewsDesc raw)) with ⟨sk, tc⟩
          simp only [hl, articleBulkCreate, Except.ok.injEq,
            Prod.mk.injEq] at hb
          rw [← hb.1]
    simp [newsStep, hb, hr]

/-- C7.  Candle Importer fault isolation: a missing file, a non-list or
unparseable file, and a per-record exception each make the ticker report
`{ticker, inserted: 0}` with the store untouched; and a ticker that leaves
the store untouched has no effect on the remaining tickers' results. -/
theorem candles_fault_isolation :
    (∀ (env : CandlesEnv) (store : List MarketCandle) (sym : String),
        env.file (sym ++ "_1h_7d.json") = none →
        candlesStep env store sym = (⟨sym, 0⟩, store))
    ∧ (∀ (env : CandlesEnv) (store : List MarketCandle) (sym : String),
        env.file (sym ++ "_1h_7d.json") = some .bad →
        candlesStep env store sym = (⟨sym, 0⟩, store))
    ∧ (∀ (env : CandlesEnv) (store : List MarketCandle) (sym : String)
        (records : List CandleRecord),
        env.file (sym ++ "_1h_7d.json") = some (.list records) →
        candlesToCreate env.companies sym records = .error () →
        candlesStep env store sym = (⟨sym, 0⟩, store))
    ∧ (∀ (env : CandlesEnv) (store : List MarketCandle) (sym : String)
        (rest : List String), (candlesStep env store sym).2 = store →
        runCandlesAux env store (sym :: rest)
          = ((candlesStep env store sym).1
                :: (runCandlesAux env store rest).1,
             (runCandlesAux env store rest).2)) := by
  refine ⟨?_, ?_, ?_, ?_⟩
  · intro env store sym h
    simp [candlesStep, h]
  · intro env store sym h
    simp [candlesStep, h]
  · intro env store sym records hf htc
    simp [candlesStep, hf, htc]
  · intro env store sym rest hsnd
    rw [runCandlesAux_cons, hsnd]

/-- Witness for C7 at the concrete fixture: the ticker `"MSFT"` has no
file, reports zero and leaves the store alone. -/
theorem candles_fault_isolation_witness :
    candlesStep exCandlesEnv exCandleStore "MSFT"
      = (⟨"MSFT", 0⟩, exCandleStore) :=
  candles_fault_isolation.1 exCandlesEnv exCandleStore "MSFT" (by decide)

/-- C8.  News Importer fault isolation: a failed company lookup and a
raising provider fetch each make the per-ticker body raise; a raising body
is caught and reported exactly as `{inserted: 0, skipped: 0, errors: 1}`
with the store untouched; a ticker that leaves the store untouched has no
effect on the remaining tickers' results; and once the configuration stage
passes, the pipeline returns normally — no per-ticker exception reaches
the caller. -/
theorem news_fault_isolation :
    (∀ (env : NewsEnv) (cap : Option Int) (store : List Article)
        (sym : String), newsTickerBody env cap sym store = .error () →
        newsStep env cap store sym = (⟨sym, 0, 0, 1⟩, store))
    ∧ (∀ (env : NewsEnv) (cap : Option Int) (sym : String)
        (store : List Article), companyFirst env.companies sym = none →
        newsTickerBody env cap sym store = .error ())
    ∧ (∀ (env : NewsEnv) (cap : Option Int) (sym : String)
        (store : List Article) (company : Company),
        companyFirst env.companies sym = some company →
        env.provider sym = .error () →
        newsTickerBody env cap sym store = .error ())
    ∧ (∀ (env : NewsEnv) (cap : Option Int) (store : List Article)
        (sym : String) (rest : List String),
        (newsStep env cap store sym).2 = store →
        runNewsAux env cap store (sym :: rest)
          = ((newsStep env cap store sym).1
                :: (runNewsAux env cap store rest).1,
             (runNewsAux env cap store rest).2))
    ∧ (∀ (env : NewsEnv) (tks : List String) (fc : Bool) (cap : Option Int)
        (store : List Article) (syms : List String),
        env.apiKeyOk = true →
        resolveTickers env.companies tks fc = .ok syms →
        run_news_pipeline env tks fc cap store
          = .ok (runNewsAux env cap store syms)) := by
  refine ⟨?_, ?_, ?_, ?_, ?_⟩
  · intro env cap store sym h
    simp [newsStep, h]
  · intro env cap sym store h
    simp [newsTickerBody, h]
  · intro env cap sym store company hcf hpr
    simp [newsTickerBody, hcf, hpr]
  · intro env cap store sym rest hsnd
    rw [runNewsAux_cons, hsnd]
  · intro env tks fc cap store syms hkey hres
    simp [run_news_pipeline, hkey, hres]

/-- One-company news environment whose provider raises for `"MSFT"` and
answers `"AAPL"` with one URL-less item. -/
def exNewsEnv : NewsEnv :=
  { companies := [⟨1, "AAPL", true⟩]
    provider := fun s =>
      if s = "AAPL" then .ok [{ headline := some "h" }] else .error ()
    classify := fun _ => .ok "Positive"
    apiKeyOk := true }

/-- One-company news environment whose provider raises for every ticker. -/
def exNewsEnvDown : NewsEnv :=
  { companies := [⟨1, "AAPL", true⟩]
    provider := fun _ => .error ()
    classify := fun _ => .ok "Positive"
    apiKeyOk := true }

/-- Witness for C8 at the concrete environments: an unknown ticker fails
the lookup, a raising provider fails the fetch, and the step reports
`{0, 0, 1}`. -/
theorem news_fault_isolation_witness :
    newsTickerBody exNewsEnv none "MSFT" [] = .error ()
    ∧ newsStep exNewsEnvDown none [] "AAPL" = (⟨"AAPL", 0, 0, 1⟩, [])
    ∧ run_news_pipeline exNewsEnv ["AAPL", "MSFT"] false none []
        = .ok (runNewsAux exNewsEnv none [] ["AAPL", "MSFT"]) := by
  have h2 : newsTickerBody exNewsEnv none "MSFT" [] = .error () :=
    news_fault_isolation.2.1 exNewsEnv none "MSFT" [] (by decide)
  have h3 : newsTickerBody exNewsEnvDown none "AAPL" [] = .error () :=
    news_fault_isolation.2.2.1 exNewsEnvDown none "AAPL" []
      ⟨1, "AAPL", true⟩ (by decide) rfl
  exact ⟨h2, news_fault_isolation.1 exNewsEnvDown none [] "AAPL" h3,
    news_fault_isolation.2.2.2.2 exNewsEnv ["AAPL", "MSFT"] false none []
      ["AAPL", "MSFT"] rfl (by decide)⟩

/-- C9.  An item with a falsy URL maps to no article; the item loop counts
exactly the falsy-URL items as `skipped` and persists exactly the
constructed articles (so URL-less items never reach the batch); and a
successful per-ticker body always reports `errors = 0` — a missing URL is
never an error. -/
theorem news_skip_not_error :
    (∀ (classify : String → Except Unit String) (cid : Nat) (it : NewsItem),
        pyTruthyStr it.url = false → processNewsItem classify cid it = none)
    ∧ (∀ (classify : String → Except Unit String) (cid : Nat)
        (items : List NewsItem),
        newsLoop classify cid items
          = (items.countP (fun it => !(pyTruthyStr it.url)),
             items.filterMap (processNewsItem classify cid)))
    ∧ (∀ (env : NewsEnv) (cap : Option Int) (sym : String)
        (store : List Article) (r : NewsResult) (s' : List Article),
        newsTickerBody env cap sym store = .ok (r, s') → r.errors = 0) := by
  refine ⟨?_, newsLoop_eq, ?_⟩
  · intro classify cid it h
    exact (processNewsItem_eq_none classify cid it).mpr h
  · intro env cap sym store r s' h
    unfold newsTickerBody at h
    cases hcf : companyFirst env.companies sym with
    | none => rw [hcf] at h; cases h
    | some company =>
      rw [hcf] at h
      cases hpr : env.provider sym with
      | error e => rw [hpr] at h; cases h
      | ok raw =>
        rw [hpr] at h
        rcases hl : newsLoop env.classify company.id
            (applyCap cap (sortNewsDesc raw)) with ⟨sk, tc⟩
        simp only [hl, articleBulkCreate, Except.ok.injEq,
          Prod.mk.injEq] at h
        rw [← h.1]

/-- Witness for C9 at a concrete URL-less item. -/
theorem news_skip_not_error_witness :
    processNewsItem (fun _ => .ok "Positive") 1 { headline := some "h" }
      = none :=
  news_skip_not_error.1 (fun _ => .ok "Positive") 1 { headline := some "h" }
    rfl

/-- C10.  Both importer loops emit exactly one report per resolved ticker,
in universe order, whatever happened per ticker or per item; whenever a
pipeline run returns, its report list maps back to the resolved ticker
universe. -/
theorem importer_results_shape :
    (∀ (env : CandlesEnv) (store : List MarketCandle) (syms : List String),
        ((runCandlesAux env store syms).1).map (fun r => r.ticker) = syms)
    ∧ (∀ (env : NewsEnv) (cap : Option Int) (store : List Article)
        (syms : List String),
        ((runNewsAux env cap store syms).1).map (fun r => r.ticker) = syms)
    ∧ (∀ (env : CandlesEnv) (fc : Bool) (tks : List String)
        (store : List MarketCandle) (res : List CandleResult)
        (s : List MarketCandle),
        run_candles_from_json_pipeline env fc tks store = .ok (res, s) →
        ∃ syms, resolveTickers env.companies tks fc = .ok syms
          ∧ res.map (fun r => r.ticker) = syms)
    ∧ (∀ (env : NewsEnv) (tks : List String) (fc : Bool) (cap : Option Int)
        (store : List Article) (res : List NewsResult) (s : List Article),
        run_news_pipeline env tks fc cap store = .ok (res, s) →
        ∃ syms, resolveTickers env.companies tks fc = .ok syms
          ∧ res.map (fun r => r.ticker) = syms) := by
  have hc : ∀ (env : CandlesEnv) (syms : List String)
      (store : List MarketCandle),
      ((runCandlesAux env store syms).1).map (fun r => r.ticker) = syms := by
    intro env syms
    induction syms with
    | nil => intro store; rfl
    | cons sym rest ih =>
      intro store
      rw [runCandlesAux_cons]
      simp only [List.map_cons, candlesStep_ticker, ih]
  have hn : ∀ (env : NewsEnv) (cap : Option Int) (syms : List String)
      (store : List Article),
      ((runNewsAux env cap store syms).1).map (fun r => r.ticker) = syms := by
    intro env cap syms
    induction syms with
    | nil => intro store; rfl
    | cons sym rest ih =>
      intro store
      rw [runNewsAux_cons]
      simp only [List.map_cons, newsStep_ticker, ih]
  refine ⟨fun env store syms => hc env syms store,
    fun env cap store syms => hn env cap syms store, ?_, ?_⟩
  · intro env fc tks store res s h
    unfold run_candles_from_json_pipeline at h
    revert h
    cases hr : resolveTickers env.companies tks fc with
    | error e => intro h; cases h
    | ok syms =>
      intro h
      by_cases hd : env.dirOk
      · simp only [if_pos hd] at h
        refine ⟨syms, rfl, ?_⟩
        have hps : runCandlesAux env store syms = (res, s) := by injection h
        have hres : (runCandlesAux env store syms).1 = res := by rw [hps]
        rw [← hres]
        exact hc env syms store
      · simp only [if_neg hd] at h
        cases h
  · intro env tks fc cap store res s h
    unfold run_news_pipeline at h
    by_cases hk : env.apiKeyOk
    · rw [if_pos hk] at h
      revert h
      cases hr : resolveTickers env.companies tks fc with
      | error e => intro h; cases h
      | ok syms =>
        intro h
        refine ⟨syms, rfl, ?_⟩
        have hps : runNewsAux env cap store syms = (res, s) := by injection h
        have hres : (runNewsAux env cap store syms).1 = res := by rw [hps]
        rw [← hres]
        exact hn env cap syms store
    · rw [if_neg hk] at h
      cases h

/-- Witness for C10's run-level conjuncts at the concrete fixtures. -/
theorem importer_results_shape_witness :
    (∃ syms, resolveTickers exCandlesEnv.companies [] true = .ok syms
      ∧ [CandleResult.mk "AAPL" 1].map (fun r => r.ticker) = syms)
    ∧ ∃ syms, resolveTickers exNewsEnv.companies ["AAPL", "MSFT"] false
        = .ok syms
      ∧ ((runNewsAux exNewsEnv none [] ["AAPL", "MSFT"]).1).map
          (fun r => r.ticker) = syms :=
  ⟨importer_results_shape.2.2.1 exCandlesEnv true [] [] [⟨"AAPL", 1⟩]
     exCandleStore (by decide),
   importer_results_shape.2.2.2 exNewsEnv ["AAPL", "MSFT"] false none []
     (runNewsAux exNewsEnv none [] ["AAPL", "MSFT"]).1
     (runNewsAux exNewsEnv none [] ["AAPL", "MSFT"]).2
     (by simp [run_news_pipeline, exNewsEnv, resolveTickers])⟩

end MarketPulse
